import Mathlib

/-!
Shallow embedding of the lora-e5 driver (Rust) for specification checking.

Rust strings and byte buffers are modelled as lists of naturals (byte values);
all protocol literals in this development are ASCII, so a string literal is
embedded as the list of its character codes.  Serial-port interaction is
modelled by a Device record carrying a script of write results and read
events together with a trace of the write calls actually issued; real time
is abstracted by a timed-out flag attached to each read event.  Rust panics
(out-of-range or non-char-boundary str::split_at) are modelled by an explicit
panicked outcome of the run-result type.
-/

set_option autoImplicit false

abbrev Bytes := List Nat

/-- Bytes of an ASCII string literal (each char code; only used on ASCII text). -/
def ascii (s : String) : Bytes := s.data.map Char.toNat

/-- Decimal representation of a natural, as bytes (Rust format of u8 / usize). -/
def natDec (n : Nat) : Bytes := ascii (Nat.repr n)

/-- Newline byte, the command terminator written after every command. -/
def nl : Bytes := [10]

/-- Carriage-return / line-feed pair terminating device reply lines. -/
def crlf : Bytes := [13, 10]

/-- Index of the first occurrence of pat in hay, as in Rust str::find. -/
def findSub (hay pat : Bytes) : Option Nat :=
  match hay with
  | [] => if pat = [] then some 0 else none
  | _ :: t => if pat.isPrefixOf hay then some 0 else (findSub t pat).map (· + 1)

/-- Substring test, as in Rust str::contains. -/
def bcontains (hay pat : Bytes) : Bool := (findSub hay pat).isSome

/-- Whether the accumulated text ends with any of the terminator patterns. -/
def anyEndsWith (pats : List Bytes) (acc : Bytes) : Bool :=
  pats.any (fun p => p.isSuffixOf acc)

/-- Rust str::is_char_boundary on the UTF-8 byte representation: true at 0,
at the total length, and at any byte that is not a continuation byte. -/
def isCharBoundary (b : Bytes) (i : Nat) : Bool :=
  if i = 0 then true
  else if i = b.length then true
  else if b.length < i then false
  else match b.drop i with
    | x :: _ => !(128 ≤ x && x < 192)
    | [] => false

/-- Rust str::split_at: some (take, drop) on a char boundary, none where Rust
would panic (index past the end or inside a character). -/
def splitAtStr (b : Bytes) (i : Nat) : Option (Bytes × Bytes) :=
  if isCharBoundary b i then some (b.take i, b.drop i) else none

/-- Fuel-driven UTF-8 decoder core; decodes byte list to code points, rejecting
overlong forms, surrogates and values above 0x10FFFF (as str::from_utf8 does). -/
def utf8DecodeAux : Nat → Bytes → Option (List Nat)
  | 0, _ => none
  | _ + 1, [] => some []
  | fuel + 1, b :: rest =>
    if b < 128 then (utf8DecodeAux fuel rest).map (b :: ·)
    else if 194 ≤ b && b ≤ 223 then
      match rest with
      | c :: rest2 =>
        if 128 ≤ c && c < 192 then
          (utf8DecodeAux fuel rest2).map (((b - 192) * 64 + (c - 128)) :: ·)
        else none
      | [] => none
    else if 224 ≤ b && b ≤ 239 then
      match rest with
      | c :: d :: rest2 =>
        let cp := (b - 224) * 4096 + (c - 128) * 64 + (d - 128)
        if (128 ≤ c && c < 192) && (128 ≤ d && d < 192)
            && 2048 ≤ cp && !(55296 ≤ cp && cp ≤ 57343) then
          (utf8DecodeAux fuel rest2).map (cp :: ·)
        else none
      | _ => none
    else if 240 ≤ b && b ≤ 244 then
      match rest with
      | c :: d :: e :: rest2 =>
        let cp := (b - 240) * 262144 + (c - 128) * 4096 + (d - 128) * 64 + (e - 128)
        if (128 ≤ c && c < 192) && (128 ≤ d && d < 192) && (128 ≤ e && e < 192)
            && 65536 ≤ cp && cp ≤ 1114111 then
          (utf8DecodeAux fuel rest2).map (cp :: ·)
        else none
      | _ => none
    else none

/-- UTF-8 decoding of a byte list (none exactly when str::from_utf8 errors). -/
def utf8Decode (b : Bytes) : Option (List Nat) := utf8DecodeAux (b.length + 1) b

/-- UTF-8 encoding of a code point. -/
def utf8EncodeChar (cp : Nat) : Bytes :=
  if cp < 128 then [cp]
  else if cp < 2048 then [192 + cp / 64, 128 + cp % 64]
  else if cp < 65536 then [224 + cp / 4096, 128 + cp / 64 % 64, 128 + cp % 64]
  else [240 + cp / 262144, 128 + cp / 4096 % 64, 128 + cp / 64 % 64, 128 + cp % 64]

/-- UTF-8 encoding of a code-point list. -/
def utf8Encode (cps : List Nat) : Bytes := cps.flatMap utf8EncodeChar

/-- Unicode White_Space code points, the set trimmed by Rust str::trim_end. -/
def isRustWhitespace (cp : Nat) : Bool :=
  (9 ≤ cp && cp ≤ 13) || cp = 32 || cp = 133 || cp = 160 || cp = 5760
    || (8192 ≤ cp && cp ≤ 8202) || cp = 8232 || cp = 8233 || cp = 8239
    || cp = 8287 || cp = 12288

/-- Rust str::trim_end on the byte representation: decode, drop trailing
whitespace characters, re-encode.  On invalid UTF-8 (never reached through
the driver, which validates first) the bytes are returned unchanged. -/
def trimEnd (b : Bytes) : Bytes :=
  match utf8Decode b with
  | some cps => utf8Encode ((cps.reverse.dropWhile isRustWhitespace).reverse)
  | none => b

/-- Uppercasing of one ASCII byte. -/
def upperByte (c : Nat) : Nat := if 97 ≤ c && c ≤ 122 then c - 32 else c

/-- Uppercasing of ASCII letters; agrees with Rust String::to_uppercase on the
ASCII-only strings produced by hex encoding. -/
def asciiUpper (b : Bytes) : Bytes := b.map upperByte

/-- Lowercase hex digit for a value below 16 (hex crate HEX_CHARS_LOWER). -/
def hexDigitL (n : Nat) : Nat := if n < 10 then 48 + n else 87 + n

/-- Rust hex::encode: two lowercase hex digits per byte. -/
def hexEncode (b : Bytes) : Bytes :=
  b.flatMap (fun x => [hexDigitL (x / 16), hexDigitL (x % 16)])

/-- Value of a hex digit character, accepting both cases (hex crate val). -/
def hexVal (c : Nat) : Option Nat :=
  if 48 ≤ c && c ≤ 57 then some (c - 48)
  else if 97 ≤ c && c ≤ 102 then some (c - 87)
  else if 65 ≤ c && c ≤ 70 then some (c - 55)
  else none

deriving instance DecidableEq for Except

/-- Error value of the hex crate: odd input length, or the first invalid
character together with its index. -/
inductive HexErr where
  | oddLength : HexErr
  | invalidHexCharacter (c : Nat) (index : Nat) : HexErr
deriving DecidableEq, Repr

/-- Pairwise decoding loop of hex::decode, tracking the character index. -/
def hexDecodeAux : Bytes → Nat → Except HexErr Bytes
  | [], _ => .ok []
  | [c], i => .error (.invalidHexCharacter c i)
  | a :: b :: rest, i =>
    match hexVal a with
    | none => .error (.invalidHexCharacter a i)
    | some va =>
      match hexVal b with
      | none => .error (.invalidHexCharacter b (i + 1))
      | some vb =>
        match hexDecodeAux rest (i + 2) with
        | .ok v => .ok ((va * 16 + vb) :: v)
        | .error e => .error e

/-- Rust hex::decode: parity check, then pairwise digit decoding. -/
def hexDecode (s : Bytes) : Except HexErr Bytes :=
  if s.length % 2 ≠ 0 then .error .oddLength else hexDecodeAux s 0

/-- Error kinds of Rust core ParseIntError. -/
inductive IntErr where
  | empty : IntErr
  | invalidDigit : IntErr
  | posOverflow : IntErr
  | negOverflow : IntErr
deriving DecidableEq, Repr

/-- Digits of a decimal string folded to a natural. -/
def digitsToNat (b : Bytes) : Nat := b.foldl (fun acc c => acc * 10 + (c - 48)) 0

/-- Whether a byte is an ASCII decimal digit. -/
def isDigitB (c : Nat) : Bool := 48 ≤ c && c ≤ 57

/-- Rust isize::from_str (64-bit): optional sign, one or more digits, range
checked against the 64-bit signed range. -/
def parseIsize (s : Bytes) : Except IntErr Int :=
  match s with
  | [] => .error .empty
  | _ =>
    let neg := s.head? = some 45
    let rest := if s.head? = some 45 || s.head? = some 43 then s.tail else s
    if rest = [] then .error .invalidDigit
    else if !(rest.all isDigitB) then .error .invalidDigit
    else
      let v := digitsToNat rest
      if neg then
        if v ≤ 9223372036854775808 then .ok (-(v : Int)) else .error .negOverflow
      else
        if v < 9223372036854775808 then .ok (v : Int) else .error .posOverflow

/-- Error kinds of Rust core ParseFloatError. -/
inductive FloatErr where
  | empty : FloatErr
  | invalid : FloatErr
deriving DecidableEq, Repr

/-- Value parsed by Rust f32::from_str, kept exact: finite num exp denotes
num times ten to the exp (no rounding is modelled; the claims only involve
values that are exactly representable). -/
inductive F32Val where
  | finite (num : Int) (exp : Int) : F32Val
  | infinite (neg : Bool) : F32Val
  | nanVal : F32Val
deriving DecidableEq, Repr

/-- Exact rational denoted by a finite parsed float value. -/
def F32Val.toRat : F32Val → ℚ
  | .finite num exp => (num : ℚ) * (10 : ℚ) ^ exp
  | .infinite _ => 0
  | .nanVal => 0

/-- Case-insensitive ASCII equality with a literal. -/
def ciEq (b : Bytes) (lit : String) : Bool :=
  asciiUpper b = asciiUpper (ascii lit)

/-- Mantissa and exponent grammar of Rust f32::from_str after the sign:
digits, optional point and fraction digits (at least one digit in total),
optional exponent with mandatory digits; the whole input must be consumed. -/
def parseF32Dec (neg : Bool) (rest : Bytes) : Except FloatErr F32Val :=
  let intDigits := rest.takeWhile isDigitB
  let afterInt := rest.drop intDigits.length
  let hasPoint := afterInt.head? = some 46
  let fracSrc := if hasPoint then afterInt.tail else afterInt
  let fracDigits := if hasPoint then fracSrc.takeWhile isDigitB else []
  let afterFrac := if hasPoint then fracSrc.drop fracDigits.length else afterInt
  if intDigits = [] && fracDigits = [] then .error .invalid
  else
    let mant : Nat := digitsToNat (intDigits ++ fracDigits)
    let baseExp : Int := -(fracDigits.length : Int)
    match afterFrac with
    | [] => .ok (.finite (if neg then -(mant : Int) else (mant : Int)) baseExp)
    | e :: expRest =>
      if e = 101 || e = 69 then
        let eneg := expRest.head? = some 45
        let eDigits := if expRest.head? = some 45 || expRest.head? = some 43
          then expRest.tail else expRest
        if eDigits = [] then .error .invalid
        else if !(eDigits.all isDigitB) then .error .invalid
        else
          let ev : Int := if eneg then -(digitsToNat eDigits : Int) else (digitsToNat eDigits : Int)
          .ok (.finite (if neg then -(mant : Int) else (mant : Int)) (baseExp + ev))
      else .error .invalid

/-- Rust f32::from_str: empty error, optional sign, case-insensitive special
values inf, infinity and nan, otherwise the decimal grammar. -/
def parseF32 (s : Bytes) : Except FloatErr F32Val :=
  match s with
  | [] => .error .empty
  | _ =>
    let neg := s.head? = some 45
    let rest := if s.head? = some 45 || s.head? = some 43 then s.tail else s
    if ciEq rest "inf" || ciEq rest "infinity" then .ok (.infinite neg)
    else if ciEq rest "nan" then .ok .nanVal
    else parseF32Dec neg rest

/-- Error type of the driver (src/lib/src/error.rs), restricted to the
constructors reachable in the embedded operations.  ioErr stands for the
serial-port and std::io error cases, whose payloads the driver never
inspects. -/
inductive ParseErr where
  | fromHex (e : HexErr) : ParseErr
  | vecWrongSize (len : Nat) : ParseErr
deriving DecidableEq, Repr

/-- Driver error kinds reachable in the embedded operations. -/
inductive Err where
  | ioErr : Err
  | utf8 : Err
  | unexpectedResponse (s : Bytes) : Err
  | partialResponse (s : Bytes) : Err
  | parseErr (e : ParseErr) : Err
  | incorrectWrite (got : Nat) (expected : Nat) : Err
  | nack : Err
  | failedToParseRssiSnr (s : Bytes) : Err
  | failedToParseRssiInt (e : IntErr) : Err
  | failedToParseSnrF32 (e : FloatErr) : Err
deriving DecidableEq, Repr

/-- Outcome of running an operation: Ok value, Err value, a Rust panic, or
stuck when the device script is exhausted before the operation decides
(representing runs longer than the script describes). -/
inductive RRes (α : Type) where
  | ok (a : α) : RRes α
  | err (e : Err) : RRes α
  | panicked : RRes α
  | stuck : RRes α
deriving DecidableEq, Repr

/-- Whether a driver error value carries the given text (used to formalise
the phrase: a descriptive error including the offending text). -/
def errorMentions (e : Err) (txt : Bytes) : Bool :=
  match e with
  | .unexpectedResponse s => bcontains s txt
  | .partialResponse s => bcontains s txt
  | .failedToParseRssiSnr s => bcontains s txt
  | _ => false

/-- A scripted read event: the result of one port.read call (none models an
Err result, which the read loop ignores; some chunk models Ok with those
bytes) and whether the loop timeout has elapsed when checked afterwards. -/
structure ReadEv where
  chunk : Option Bytes
  timedOut : Bool
deriving DecidableEq, Repr, Inhabited

/-- The serial device model: a script of write results (none is an io error,
some n a claimed byte count), a script of read events, the trace of write
calls issued so far, and the response buffer content buf (the prefix of the
LoraE5 scratch buffer up to the cursor of the last read operation). -/
structure Device where
  writeScript : List (Option Nat)
  readScript : List ReadEv
  writes : List Bytes
  buf : Bytes
deriving DecidableEq, Repr, Inhabited

/-- One port.write call: consumes the next scripted result and records the
bytes passed in the trace (an exhausted script behaves as an io error). -/
def portWrite (b : Bytes) (d : Device) : Option Nat × Device :=
  match d.writeScript with
  | [] => (none, { d with writes := d.writes ++ [b] })
  | r :: rest => (r, { d with writeScript := rest, writes := d.writes ++ [b] })

/-- LoraE5::write_command (src/lib/src/lib.rs lines 68-78): write the command
bytes, then the newline, as two write calls; a byte count differing from the
length passed is an IncorrectWrite error ending the operation. -/
def write_command (cmd : Bytes) (d : Device) : RRes Unit × Device :=
  let (r1, d1) := portWrite cmd d
  match r1 with
  | none => (.err .ioErr, d1)
  | some n =>
    if n ≠ cmd.length then (.err (.incorrectWrite n cmd.length), d1)
    else
      let (r2, d2) := portWrite nl d1
      match r2 with
      | none => (.err .ioErr, d2)
      | some n2 =>
        if n2 ≠ 1 then (.err (.incorrectWrite n2 1), d2) else (.ok (), d2)

/-- The write path of the actor runtime raw AT request: Client::at_command
(src/lib/src/process.rs lines 28-34) appends a newline to the caller command
before queueing it, and the Request::At arm of Runtime::run then invokes
write_command on the result. -/
def atRequestWrite (cmd : Bytes) (d : Device) : RRes Unit × Device :=
  write_command (cmd ++ nl) d

/-- Loop body of LoraE5::read_until_pattern (src/src/parse.rs lines 8-28),
generalised from one pattern to the pattern slices its callers in
src/lib/src/lib.rs pass: consume read events, append each delivered chunk,
and after every event first fail on invalid UTF-8, then succeed if the
accumulated bytes end with one of the patterns, then fail with
PartialResponse if the timeout has elapsed.  Returns the outcome, the final
accumulated bytes and the unconsumed script. -/
def ruGo (pats : List Bytes) : List ReadEv → Bytes → RRes Nat × Bytes × List ReadEv
  | [], acc => (.stuck, acc, [])
  | ev :: rest, acc =>
    let acc2 := match ev.chunk with
      | some c => acc ++ c
      | none => acc
    if (utf8Decode acc2).isNone then (.err .utf8, acc2, rest)
    else if anyEndsWith pats acc2 then (.ok acc2.length, acc2, rest)
    else if ev.timedOut then (.err (.partialResponse acc2), acc2, rest)
    else ruGo pats rest acc2

/-- LoraE5::read_until_pattern at the device level: runs the loop from an
empty cursor and stores the accumulated bytes as the new buffer content. -/
def read_until_pattern (pats : List Bytes) (d : Device) : RRes Nat × Device :=
  match ruGo pats d.readScript [] with
  | (r, acc, rest) => (r, { d with readScript := rest, buf := acc })

/-- LoraE5::read_until_break: read_until_pattern with the newline pattern. -/
def read_until_break (d : Device) : RRes Nat × Device :=
  read_until_pattern [nl] d

/-- LoraE5::framed_response (src/src/parse.rs lines 30-38): UTF-8 decode the
buffer prefix, split at the prelude length (a Rust panic when the response is
shorter than the prelude or the split lands inside a character), return the
remainder on a prelude match and otherwise an UnexpectedResponse carrying the
whole response. -/
def framed_response (resp prelude : Bytes) : RRes Bytes :=
  if (utf8Decode resp).isNone then .err .utf8
  else
    match splitAtStr resp prelude.length with
    | none => .panicked
    | some (p, rest) =>
      if p = prelude then .ok rest else .err (.unexpectedResponse resp)

/-- LoraE5::check_framed_response (src/src/parse.rs lines 40-52): strip the
prelude, trim the payload and compare with the expected echo; a mismatch is
an UnexpectedResponse carrying the payload. -/
def check_framed_response (resp prelude expected : Bytes) : RRes Unit :=
  match framed_response resp prelude with
  | .ok r => if trimEnd r = expected then .ok () else .err (.unexpectedResponse r)
  | .err e => .err e
  | .panicked => .panicked
  | .stuck => .stuck

/-- Propagation helper for the question-mark operator: rewraps a non-ok
outcome at another result type. -/
def RRes.pass {α β : Type} (r : RRes α) (e : Err) : RRes β :=
  match r with
  | .ok _ => .err e
  | .err e2 => .err e2
  | .panicked => .panicked
  | .stuck => .stuck

/-- LoraE5::set_channel (src/lib/src/lib.rs lines 94-99): write
AT+CH=n,on or AT+CH=n,off, read a line, and require the echo
+CH: CHn off. -/
def set_channel (ch : Nat) (enable : Bool) (d : Device) : RRes Unit × Device :=
  let cmd := ascii "AT+CH=" ++ natDec ch ++ [44] ++ (if enable then ascii "on" else ascii "off")
  match write_command cmd d with
  | (.ok _, d1) =>
    match read_until_break d1 with
    | (.ok _, d2) =>
      (check_framed_response d2.buf (ascii "+CH: CH") (natDec ch ++ ascii " off"), d2)
    | (r, d2) => (r.pass .nack, d2)
  | (r, d1) => (r, d1)

/-- Channels disabled by subband2_only, in call order: 0 to 7 then 16 to 71
(the two for loops of src/lib/src/lib.rs lines 101-109). -/
def subbandChannels : List Nat := List.range 8 ++ List.range' 16 56

/-- Sequential set_channel off calls with first-failure abort (the
question-mark operator inside the loops of subband2_only). -/
def setChannelsOff : List Nat → Device → RRes Unit × Device
  | [], d => (.ok (), d)
  | c :: rest, d =>
    match set_channel c false d with
    | (.ok _, d1) => setChannelsOff rest d1
    | (r, d1) => (r, d1)

/-- LoraE5::subband2_only (src/lib/src/lib.rs lines 101-109). -/
def subband2_only (d : Device) : RRes Unit × Device :=
  setChannelsOff subbandChannels d

/-- LoraE5::is_ok (src/lib/src/lib.rs lines 80-84): write AT, read a line,
and map the check_framed_response outcome through Result::is_ok. -/
def is_ok (d : Device) : RRes Bool × Device :=
  match write_command (ascii "AT") d with
  | (.ok _, d1) =>
    match read_until_break d1 with
    | (.ok _, d2) =>
      (match check_framed_response d2.buf (ascii "+AT: ") (ascii "OK") with
        | .ok _ => .ok true
        | .err _ => .ok false
        | .panicked => .panicked
        | .stuck => .stuck, d2)
    | (r, d2) => (r.pass .nack, d2)
  | (r, d1) => (r.pass .nack, d1)

/-- Terminator line +JOIN: Done of a join response. -/
def joinDoneLine : Bytes := ascii "+JOIN: Done\r\n"

/-- Terminator line +JOIN: Joined already of a join response. -/
def alreadyJoinedLine : Bytes := ascii "+JOIN: Joined already\r\n"

/-- Tri-state join outcome. -/
inductive JoinResponse where
  | joinComplete : JoinResponse
  | joinFailed : JoinResponse
  | alreadyJoined : JoinResponse
deriving DecidableEq, Repr

/-- Classification step of LoraE5::join (src/lib/src/lib.rs lines 134-140):
scan the accumulated text for the full already-joined line, then for the
Network joined substring. -/
def joinClassify (r : Bytes) : JoinResponse :=
  if bcontains r alreadyJoinedLine then .alreadyJoined
  else if bcontains r (ascii "Network joined") then .joinComplete
  else .joinFailed

/-- LoraE5::join (src/lib/src/lib.rs lines 127-141). -/
def join (d : Device) : RRes JoinResponse × Device :=
  match write_command (ascii "AT+JOIN") d with
  | (.ok _, d1) =>
    match read_until_pattern [joinDoneLine, alreadyJoinedLine] d1 with
    | (.ok _, d2) => (.ok (joinClassify d2.buf), d2)
    | (r, d2) => (r.pass .nack, d2)
  | (r, d1) => (r.pass .nack, d1)

/-- LoraE5::set_port (src/lib/src/lib.rs lines 155-161). -/
def set_port (port : Nat) (d : Device) : RRes Unit × Device :=
  let cmd := ascii "AT+PORT=" ++ natDec port
  match write_command cmd d with
  | (.ok _, d1) =>
    match read_until_break d1 with
    | (.ok _, d2) => (check_framed_response d2.buf (ascii "+PORT: ") (natDec port), d2)
    | (r, d2) => (r.pass .nack, d2)
  | (r, d1) => (r, d1)

/-- LoraE5::parse_rssi_snr (src/lib/src/lib.rs lines 229-245): split at the
window-marker offset, locate the line end, strip the fixed-width prefixes,
split at the first comma-space and parse the two numbers; the str::split_at
calls panic on out-of-range indices. -/
def parse_rssi_snr (resp : Bytes) (m : Nat) : RRes (Int × F32Val) :=
  match splitAtStr resp m with
  | none => .panicked
  | some (_, remaining) =>
    match findSub remaining crlf with
    | none => .err (.failedToParseRssiSnr resp)
    | some n =>
      match splitAtStr remaining n with
      | none => .panicked
      | some (line, _) =>
        match splitAtStr line (ascii ", RSSI ").length with
        | none => .panicked
        | some (_, signal) =>
          match findSub signal (ascii ", ") with
          | none => .err (.failedToParseRssiSnr resp)
          | some k =>
            match splitAtStr signal k with
            | none => .panicked
            | some (rssiRem, snrRem) =>
              match splitAtStr rssiRem (ascii " RSSI ").length with
              | none => .panicked
              | some (_, rssiStr) =>
                match splitAtStr snrRem (ascii ", SNR ").length with
                | none => .panicked
                | some (_, snrStr) =>
                  match parseIsize rssiStr with
                  | .error e => .err (.failedToParseRssiInt e)
                  | .ok v =>
                    match parseF32 snrStr with
                    | .error e => .err (.failedToParseSnrF32 e)
                    | .ok s => .ok (v, s)

/-- Downlink result of an uplink. -/
structure Downlink where
  rssi : Int
  snr : F32Val
deriving DecidableEq, Repr

/-- Lifts a parsed rssi and snr pair into an optional downlink. -/
def mapDl (r : RRes (Int × F32Val)) : RRes (Option Downlink) :=
  match r with
  | .ok (v, s) => .ok (some { rssi := v, snr := s })
  | .err e => .err e
  | .panicked => .panicked
  | .stuck => .stuck

/-- Response classification of LoraE5::send (src/lib/src/lib.rs lines
180-192): look for RXWIN1, then RXWIN2; parse signal data at the marker when
found; otherwise Nack when confirmed and no downlink when unconfirmed. -/
def sendClassify (r : Bytes) (confirmed : Bool) : RRes (Option Downlink) :=
  match findSub r (ascii "RXWIN1") with
  | some m => mapDl (parse_rssi_snr r m)
  | none =>
    match findSub r (ascii "RXWIN2") with
    | some m => mapDl (parse_rssi_snr r m)
    | none => if confirmed then .err .nack else .ok none

/-- Command text of the binary uplink of LoraE5::send. -/
def sendCmd (data : Bytes) (confirmed : Bool) : Bytes :=
  ascii "AT+" ++ (if confirmed then ascii "CMSGHEX" else ascii "MSGHEX")
    ++ [61, 34] ++ hexEncode data ++ [34]

/-- Terminator line awaited by LoraE5::send. -/
def sendEndLine (confirmed : Bool) : Bytes :=
  if confirmed then ascii "+CMSGHEX: Done\r\n" else ascii "+MSGHEX: Done\r\n"

/-- LoraE5::send (src/lib/src/lib.rs lines 163-193): set the port, write the
hex uplink command, await the Done line and classify the response. -/
def send (data : Bytes) (port : Nat) (confirmed : Bool) (d : Device) :
    RRes (Option Downlink) × Device :=
  match set_port port d with
  | (.ok _, d1) =>
    match write_command (sendCmd data confirmed) d1 with
    | (.ok _, d2) =>
      match read_until_pattern [sendEndLine confirmed] d2 with
      | (.ok _, d3) => (sendClassify d3.buf confirmed, d3)
      | (r, d3) => (r.pass .nack, d3)
    | (r, d2) => (r.pass .nack, d2)
  | (r, d1) => (r.pass .nack, d1)

/-- FromStr of the identifier types DevEui, AppEui and AppKey
(src/src/types.rs lines 19-56, derive_from_str macro): drop colon
separators, hex decode, and require exactly the declared byte size. -/
def identFromStr (size : Nat) (s : Bytes) : Except ParseErr Bytes :=
  match hexDecode (s.filter (fun c => c ≠ 58)) with
  | .error e => .error (.fromHex e)
  | .ok v => if v.length = size then .ok v else .error (.vecWrongSize v.length)

/-- Display of the identifier types: lowercase hex encoding uppercased. -/
def identDisplay (b : Bytes) : Bytes := asciiUpper (hexEncode b)

/-- Whether a byte is an uppercase hex digit. -/
def isUpperHex (c : Nat) : Bool := (48 ≤ c && c ≤ 57) || (65 ≤ c && c ≤ 70)

/-- Accumulated bytes delivered by a prefix of a read script (chunks of the
events appended in order). -/
def accBytes : List ReadEv → Bytes → Bytes
  | [], acc => acc
  | ev :: rest, acc =>
    accBytes rest (match ev.chunk with | some c => acc ++ c | none => acc)

/-- Command text set_channel writes to disable a channel. -/
def chCmd (ch : Nat) : Bytes := ascii "AT+CH=" ++ natDec ch ++ ascii ",off"

/-- Echo line the device answers to a disable-channel command. -/
def chResp (ch : Nat) : Bytes := ascii "+CH: CH" ++ natDec ch ++ ascii " off\r\n"

/-- A device script on which every subband2_only step succeeds: each write is
acknowledged in full and each read delivers the expected echo line. -/
def subbandOkDevice : Device :=
  { writeScript := subbandChannels.flatMap (fun ch => [some (chCmd ch).length, some 1])
  , readScript := subbandChannels.map (fun ch => { chunk := some (chResp ch), timedOut := false })
  , writes := [], buf := [] }

/-- A device script whose very first write is acknowledged with zero bytes,
so the first set_channel call fails with an IncorrectWrite error. -/
def subbandFailDevice : Device :=
  { writeScript := [some 0], readScript := [], writes := [], buf := [] }

/-- A device whose write script acknowledges every write in full (used to
exhibit the write trace of the raw AT request path). -/
def atOkDevice : Device :=
  { writeScript := [some 3, some 1], readScript := [], writes := [], buf := [] }

/-- A device answering the liveness check with a bare newline: the write
succeeds and the read accumulates exactly one newline byte. -/
def isOkShortDevice : Device :=
  { writeScript := [some 2, some 1]
  , readScript := [{ chunk := some [10], timedOut := false }]
  , writes := [], buf := [] }

/-- A device answering the liveness check with the expected +AT: OK line. -/
def isOkGoodDevice : Device :=
  { writeScript := [some 2, some 1]
  , readScript := [{ chunk := some (ascii "+AT: OK\r\n"), timedOut := false }]
  , writes := [], buf := [] }

/-- A join response text that contains the bare words Joined already but not
the full already-joined line (its line ends with a lone newline). -/
def bareJoinedResp : Bytes := ascii "Joined already\n+JOIN: Done\r\n"

/-- A device delivering the full already-joined line to a join request. -/
def joinAlreadyDevice : Device :=
  { writeScript := [some 7, some 1]
  , readScript := [{ chunk := some (ascii "+JOIN: Joined already\r\n"), timedOut := false }]
  , writes := [], buf := [] }

/-- A device accepting an unconfirmed two-byte uplink on port 1 and answering
with a bare Done line containing no downlink window marker. -/
def sendNoneDevice : Device :=
  { writeScript := [some 9, some 1, some 16, some 1]
  , readScript :=
      [ { chunk := some (ascii "+PORT: 1\r\n"), timedOut := false }
      , { chunk := some (ascii "+MSGHEX: Done\r\n"), timedOut := false } ]
  , writes := [], buf := [] }

/-- A device that delivers two bytes of text and then lets the read timeout
elapse without ever producing a newline. -/
def timeoutDevice : Device :=
  { writeScript := []
  , readScript :=
      [ { chunk := some (ascii "AT"), timedOut := false }
      , { chunk := none, timedOut := true } ]
  , writes := [], buf := [] }

/-- The response text of the repository signal-parsing test
(src/src/tests.rs parse_signal), shortened to the marker line. -/
def exRssiResp : Bytes := ascii "+CMSGHEX: RXWIN1, RSSI -79, SNR 7.0\r\n"

/-- A marker line whose RSSI field is not a number. -/
def exBadRssi : Bytes := ascii "RXWIN1, RSSI xx, SNR 7.0\r\n"

/-- A response with a marker but no line terminator after it. -/
def exNoLineEnd : Bytes := ascii "RXWIN1, RSSI -79"

/-- Hex-digit values are below 16. -/
theorem hexVal_lt (c va : Nat) (h : hexVal c = some va) : va < 16 := by
  unfold hexVal at h
  split_ifs at h <;> simp_all <;> omega

/-- Bytes produced by the hex decoding loop are byte values. -/
theorem hexDecodeAux_ok_lt : ∀ (s : Bytes) (i : Nat) (v : Bytes),
    hexDecodeAux s i = .ok v → ∀ x ∈ v, x < 256
  | [], _, v, h => by
    simp only [hexDecodeAux] at h
    injection h with h2
    subst h2
    simp
  | [c], i, v, h => by
    simp [hexDecodeAux] at h
  | a :: b :: rest, i, v, h => by
    simp only [hexDecodeAux] at h
    cases ha : hexVal a with
    | none => simp [ha] at h
    | some va =>
      cases hb : hexVal b with
      | none => simp [ha, hb] at h
      | some vb =>
        simp only [ha, hb] at h
        cases hr : hexDecodeAux rest (i + 2) with
        | error e => simp [hr] at h
        | ok w =>
          simp only [hr] at h
          have ih := hexDecodeAux_ok_lt rest (i + 2) w hr
          have hva := hexVal_lt a va ha
          have hvb := hexVal_lt b vb hb
          injection h with h2
          subst h2
          intro x hx
          rcases List.mem_cons.mp hx with hx | hx
          · omega
          · exact ih x hx

set_option maxRecDepth 100000 in
/-- Uppercased lowercase hex digits of a byte decode back to its nibbles and
are uppercase hex digit characters. -/
theorem hexByteFact : ∀ x, x < 256 →
    hexVal (upperByte (hexDigitL (x / 16))) = some (x / 16) ∧
    hexVal (upperByte (hexDigitL (x % 16))) = some (x % 16) ∧
    isUpperHex (upperByte (hexDigitL (x / 16))) = true ∧
    isUpperHex (upperByte (hexDigitL (x % 16))) = true := by decide

/-- Hex encoding doubles the length. -/
theorem hexEncode_length (v : Bytes) : (hexEncode v).length = 2 * v.length := by
  induction v with
  | nil => simp [hexEncode]
  | cons x v ih =>
    simp only [hexEncode, List.flatMap_cons] at *
    simp [ih]
    omega

/-- Decoding the uppercased hex encoding of a byte list recovers it. -/
theorem hexDecodeAux_round : ∀ (v : Bytes) (i : Nat), (∀ x ∈ v, x < 256) →
    hexDecodeAux (asciiUpper (hexEncode v)) i = .ok v
  | [], i, _ => by simp [hexEncode, asciiUpper, hexDecodeAux]
  | x :: v, i, hb => by
    have hx : x < 256 := hb x (by simp)
    have hrec := hexDecodeAux_round v (i + 2) (fun y hy => hb y (by simp [hy]))
    have hfact := hexByteFact x hx
    simp only [hexEncode, asciiUpper, List.flatMap_cons, List.map_cons, List.cons_append,
      List.nil_append, List.map_append] at *
    simp only [hexDecodeAux, hfact.1, hfact.2.1, hrec]
    have : x / 16 * 16 + x % 16 = x := by omega
    simp [this]

/-- Uppercase hex digits are not the colon separator. -/
theorem isUpperHex_ne_colon (c : Nat) (h : isUpperHex c = true) : c ≠ 58 := by
  unfold isUpperHex at h
  simp at h
  omega

/-- C7: for every hex string (with optional colon separators) whose decoded
length matches the declared identifier size, parsing and then rendering
yields the canonical upper-case hex form (2 times size characters, all
upper-case hex digits), and re-parsing the rendered form returns the same
byte-exact identifier. -/
theorem ident_roundtrip (size : Nat) (s v : Bytes) (h : identFromStr size s = .ok v) :
    (identDisplay v).length = 2 * size ∧
    (∀ c ∈ identDisplay v, isUpperHex c = true) ∧
    identFromStr size (identDisplay v) = .ok v := by
  have h' := h
  unfold identFromStr at h'
  rcases hdec : hexDecode (List.filter (fun c => decide (c ≠ 58)) s) with e | w
  · rw [hdec] at h'
    simp at h'
  · rw [hdec] at h'
    by_cases hlen : w.length = size
    · simp only [hlen, if_pos rfl] at h'
      have h2 : w = v := by injection h'
      rw [h2] at hdec
      rw [h2] at hlen
      have hbounds : ∀ x ∈ v, x < 256 := by
        have haux : hexDecodeAux (List.filter (fun c => decide (c ≠ 58)) s) 0 = .ok v := by
          unfold hexDecode at hdec
          by_cases hp : (List.filter (fun c => decide (c ≠ 58)) s).length % 2 ≠ 0
          · rw [if_pos hp] at hdec
            exact absurd hdec (by simp)
          · rw [if_neg hp] at hdec
            exact hdec
        exact hexDecodeAux_ok_lt _ 0 v haux
      have hdisplen : (identDisplay v).length = 2 * size := by
        unfold identDisplay asciiUpper
        rw [List.length_map, hexEncode_length, hlen]
      have hupper : ∀ c ∈ identDisplay v, isUpperHex c = true := by
        intro c hc
        unfold identDisplay asciiUpper at hc
        rcases List.mem_map.mp hc with ⟨d, hd, hdc⟩
        unfold hexEncode at hd
        rcases List.mem_flatMap.mp hd with ⟨x, hx, hdx⟩
        have hx256 := hbounds x hx
        have hfact := hexByteFact x hx256
        rcases List.mem_cons.mp hdx with hdx | hdx
        · subst hdx
          rw [← hdc]
          exact hfact.2.2.1
        · rcases List.mem_cons.mp hdx with hdx | hdx
          · subst hdx
            rw [← hdc]
            exact hfact.2.2.2
          · simp at hdx
      refine ⟨hdisplen, hupper, ?_⟩
      unfold identFromStr
      have hfilter : List.filter (fun c => decide (c ≠ 58)) (identDisplay v) = identDisplay v := by
        rw [List.filter_eq_self]
        intro c hc
        simpa using isUpperHex_ne_colon c (hupper c hc)
      rw [hfilter]
      have hpar : (identDisplay v).length % 2 = 0 := by
        rw [hdisplen]
        omega
      unfold hexDecode
      rw [hpar]
      simp only [ne_eq, not_true_eq_false, if_false]
      have hround : hexDecodeAux (identDisplay v) 0 = .ok v := by
        have := hexDecodeAux_round v 0 hbounds
        unfold identDisplay
        exact this
      rw [hround]
      simp [hlen]
    · simp only [hlen, if_neg hlen] at h'
      exact absurd h' (by simp)

/-- Witness for ident_roundtrip: a DevEui-sized hex string with colon
separators and mixed case parses, and re-parsing its rendering is stable. -/
theorem ident_roundtrip_witness :
    identFromStr 8 (ascii "01:23:45:67:89:ab:cd:EF") = .ok [1, 35, 69, 103, 137, 171, 205, 239] ∧
    identFromStr 8 (identDisplay [1, 35, 69, 103, 137, 171, 205, 239]) =
      .ok [1, 35, 69, 103, 137, 171, 205, 239] :=
  ⟨by decide,
   (ident_roundtrip 8 (ascii "01:23:45:67:89:ab:cd:EF")
      [1, 35, 69, 103, 137, 171, 205, 239] (by decide)).2.2⟩

/-- C8: whenever the hex decoding of an identifier string succeeds but with a
byte length other than the declared size, parsing fails with the
VecWrongSize error carrying the actual decoded length, and never yields an
identifier (no truncation or padding). -/
theorem ident_wrong_size (size : Nat) (s v : Bytes)
    (h1 : hexDecode (List.filter (fun c => decide (c ≠ 58)) s) = .ok v)
    (h2 : v.length ≠ size) :
    identFromStr size s = .error (.vecWrongSize v.length) ∧
    ∀ w, identFromStr size s ≠ .ok w := by
  constructor
  · unfold identFromStr
    rw [h1]
    simp [h2]
  · intro w
    unfold identFromStr
    rw [h1]
    simp [h2]

/-- Witness for ident_wrong_size: a two-byte hex string rejected at the
DevEui size of eight bytes. -/
theorem ident_wrong_size_witness :
    identFromStr 8 (ascii "0011") = .error (.vecWrongSize 2) :=
  (ident_wrong_size 8 (ascii "0011") [0, 17] (by decide) (by decide)).1

/-- C9 counterexample: an RSSI field that is not a number makes
parse_rssi_snr return FailedToParseRssiInt carrying only the numeric error
kind, an error value that does not include the offending text xx (nor any
response text at all). -/
theorem parse_rssi_snr_counterexample :
    parse_rssi_snr exBadRssi 0 = .err (.failedToParseRssiInt .invalidDigit) ∧
    errorMentions (.failedToParseRssiInt .invalidDigit) (ascii "xx") = false := by
  constructor
  · decide
  · decide

/-- C9 as amended: on the repository test response the extraction yields
RSSI equal to minus 79 and SNR exactly 7 (the parsed value 70 times ten to
the minus 1); a missing line end after the marker yields FailedToParseRssiSnr
carrying the whole response, as does a missing comma-space separator when
the marker line is at least the 7 fixed-prefix bytes long; a marker line
shorter than those 7 bytes (such as the bare RXWIN1 line) panics in
str::split_at instead; every FailedToParseRssiSnr error carries exactly the
full response text; and a numeric parse failure yields FailedToParseRssiInt
carrying only the numeric error kind. -/
theorem parse_rssi_snr_amended :
    parse_rssi_snr exRssiResp 10 = .ok (-79, .finite 70 (-1)) ∧
    F32Val.toRat (.finite 70 (-1)) = 7 ∧
    (∀ resp m, isCharBoundary resp m = true → findSub (resp.drop m) crlf = none →
      parse_rssi_snr resp m = .err (.failedToParseRssiSnr resp)) ∧
    (∀ resp m n, isCharBoundary resp m = true →
      findSub (resp.drop m) crlf = some n →
      isCharBoundary (resp.drop m) n = true →
      isCharBoundary ((resp.drop m).take n) (ascii ", RSSI ").length = true →
      findSub (((resp.drop m).take n).drop (ascii ", RSSI ").length) (ascii ", ") = none →
      parse_rssi_snr resp m = .err (.failedToParseRssiSnr resp)) ∧
    parse_rssi_snr (ascii "RXWIN1\r\n") 0 = .panicked ∧
    (∀ resp m s, parse_rssi_snr resp m = .err (.failedToParseRssiSnr s) → s = resp) ∧
    parse_rssi_snr exBadRssi 0 = .err (.failedToParseRssiInt .invalidDigit) := by
  refine ⟨by decide, ?_, ?_, ?_, by decide, ?_, by decide⟩
  · unfold F32Val.toRat
    norm_num
  · intro resp m hb hn
    have h1 : splitAtStr resp m = some (resp.take m, resp.drop m) := by
      unfold splitAtStr
      rw [hb]
      simp
    unfold parse_rssi_snr
    simp only [h1, hn]
  · intro resp m n hb hn hbn hb7 hc
    have s1 : splitAtStr resp m = some (resp.take m, resp.drop m) := by
      unfold splitAtStr
      rw [hb]
      simp
    have s2 : splitAtStr (resp.drop m) n =
        some ((resp.drop m).take n, (resp.drop m).drop n) := by
      unfold splitAtStr
      rw [hbn]
      simp
    have s3 : splitAtStr ((resp.drop m).take n) (ascii ", RSSI ").length =
        some (((resp.drop m).take n).take (ascii ", RSSI ").length,
          ((resp.drop m).take n).drop (ascii ", RSSI ").length) := by
      unfold splitAtStr
      rw [hb7]
      simp
    unfold parse_rssi_snr
    simp only [s1, hn, s2, s3, hc]
  · intro resp m s h
    unfold parse_rssi_snr at h
    repeat' split at h
    all_goals simp_all

/-- Witness for parse_rssi_snr_amended: a marker line with no CR LF
terminator, and a marker line whose signal field has no comma-space
separator, both surface the whole response in the structural error. -/
theorem parse_rssi_snr_amended_witness :
    parse_rssi_snr exNoLineEnd 0 = .err (.failedToParseRssiSnr exNoLineEnd) ∧
    parse_rssi_snr (ascii "RXWIN1, RSSI -79 SNR 7.0\r\n") 0 =
      .err (.failedToParseRssiSnr (ascii "RXWIN1, RSSI -79 SNR 7.0\r\n")) :=
  ⟨parse_rssi_snr_amended.2.2.1 exNoLineEnd 0 (by decide) (by decide),
   parse_rssi_snr_amended.2.2.2.1 (ascii "RXWIN1, RSSI -79 SNR 7.0\r\n") 0 24
     (by decide) (by decide) (by decide) (by decide) (by decide)⟩

/-- C3 counterexample: on the one-byte response A with the expected prelude
of the version command, framed_response panics (str::split_at out of range)
instead of returning an UnexpectedResponse error carrying the response. -/
theorem framed_response_counterexample :
    framed_response [65] (ascii "+VER: ") = .panicked ∧
    (RRes.panicked : RRes Bytes) ≠ .err (.unexpectedResponse [65]) ∧
    (ascii "+VER: ").isPrefixOf [65] = false := by
  refine ⟨by decide, by decide, by decide⟩

/-- C3 as amended: for a UTF-8 valid response at least as long as the prelude
(with the prelude length on a character boundary), framed_response returns
the remainder on a prefix match and otherwise an UnexpectedResponse carrying
the full response; but a UTF-8 valid response shorter than the prelude makes
it panic. -/
theorem framed_response_amended (resp prelude : Bytes)
    (h1 : (utf8Decode resp).isSome = true)
    (h2 : isCharBoundary resp prelude.length = true) :
    framed_response resp prelude =
      (if resp.take prelude.length = prelude then .ok (resp.drop prelude.length)
       else .err (.unexpectedResponse resp)) ∧
    (∀ r p : Bytes, (utf8Decode r).isSome = true → r.length < p.length →
      framed_response r p = .panicked) := by
  constructor
  · rcases hu : utf8Decode resp with _ | cps
    · rw [hu] at h1
      simp at h1
    · by_cases hp : resp.take prelude.length = prelude
      · simp [framed_response, splitAtStr, h2, hu, hp]
      · simp [framed_response, splitAtStr, h2, hu, hp]
  · intro r p hus hlen
    rcases hd : utf8Decode r with _ | cps
    · rw [hd] at hus
      simp at hus
    · have hbound : isCharBoundary r p.length = false := by
        unfold isCharBoundary
        split_ifs <;> first | rfl | (exfalso; omega)
      simp [framed_response, splitAtStr, hbound, hd]

/-- Witness for framed_response_amended: a well-formed version response with
a matching prelude. -/
theorem framed_response_amended_witness :
    framed_response (ascii "+VER: 4.0.11\r\n") (ascii "+VER: ") =
      (if (ascii "+VER: 4.0.11\r\n").take (ascii "+VER: ").length = ascii "+VER: "
       then .ok ((ascii "+VER: 4.0.11\r\n").drop (ascii "+VER: ").length)
       else .err (.unexpectedResponse (ascii "+VER: 4.0.11\r\n"))) :=
  (framed_response_amended (ascii "+VER: 4.0.11\r\n") (ascii "+VER: ")
    (by decide) (by decide)).1

/-- Outcomes of a successful read loop: the accumulated bytes are UTF-8
valid, end with one of the terminator patterns, and the returned count is
their length. -/
theorem ruGo_ok_shape (pats : List Bytes) : ∀ (script : List ReadEv) (acc accF : Bytes)
    (n : Nat) (rest : List ReadEv),
    ruGo pats script acc = (.ok n, accF, rest) →
    (utf8Decode accF).isSome = true ∧ anyEndsWith pats accF = true ∧ n = accF.length
  | [], acc, accF, n, rest, h => by simp [ruGo] at h
  | ev :: script, acc, accF, n, rest, h => by
    simp only [ruGo] at h
    generalize hacc2 : (match ev.chunk with | some c => acc ++ c | none => acc) = acc2 at h
    by_cases hu : (utf8Decode acc2).isNone = true
    · rw [if_pos hu] at h
      simp at h
    · rw [if_neg hu] at h
      by_cases he : anyEndsWith pats acc2 = true
      · rw [if_pos he] at h
        rw [Prod.mk.injEq, Prod.mk.injEq] at h
        obtain ⟨h1, h2, h3⟩ := h
        subst h2
        have hsome : (utf8Decode acc2).isSome = true := by
          rcases hx : utf8Decode acc2 with _ | q
          · exact absurd (by rw [hx]; rfl) hu
          · rfl
        injection h1 with h1e
        exact ⟨hsome, he, h1e.symm⟩
      · rw [if_neg he] at h
        by_cases ht : ev.timedOut = true
        · rw [if_pos ht] at h
          simp at h
        · rw [if_neg ht] at h
          exact ruGo_ok_shape pats script acc2 accF n rest h

/-- Error outcomes of the read loop are only the UTF-8 error or a
PartialResponse whose payload is exactly the accumulated bytes, with no
terminator pattern matched on it. -/
theorem ruGo_err_shape (pats : List Bytes) : ∀ (script : List ReadEv) (acc accF : Bytes)
    (e : Err) (rest : List ReadEv),
    ruGo pats script acc = (.err e, accF, rest) →
    e = .utf8 ∨ (e = .partialResponse accF ∧ anyEndsWith pats accF = false)
  | [], acc, accF, e, rest, h => by simp [ruGo] at h
  | ev :: script, acc, accF, e, rest, h => by
    simp only [ruGo] at h
    generalize hacc2 : (match ev.chunk with | some c => acc ++ c | none => acc) = acc2 at h
    by_cases hu : (utf8Decode acc2).isNone = true
    · rw [if_pos hu] at h
      rw [Prod.mk.injEq, Prod.mk.injEq] at h
      obtain ⟨h1, h2, h3⟩ := h
      injection h1 with h1e
      exact Or.inl h1e.symm
    · rw [if_neg hu] at h
      by_cases he : anyEndsWith pats acc2 = true
      · rw [if_pos he] at h
        simp at h
      · rw [if_neg he] at h
        by_cases ht : ev.timedOut = true
        · rw [if_pos ht] at h
          rw [Prod.mk.injEq, Prod.mk.injEq] at h
          obtain ⟨h1, h2, h3⟩ := h
          subst h2
          injection h1 with h1e
          right
          refine ⟨h1e.symm, ?_⟩
          rcases hae : anyEndsWith pats acc2
          · rfl
          · exact absurd hae he
        · rw [if_neg ht] at h
          exact ruGo_err_shape pats script acc2 accF e rest h


/-- Error outcomes of write_command are only the io error or an
IncorrectWrite. -/
theorem write_command_err_shape (cmd : Bytes) (d : Device) (e : Err)
    (h : (write_command cmd d).1 = .err e) :
    e = .ioErr ∨ ∃ a b, e = .incorrectWrite a b := by
  unfold write_command portWrite at h
  rcases hs : d.writeScript with _ | ⟨r1, rest1⟩ <;> rw [hs] at h
  · simp at h
    left
    exact h.symm
  · rcases r1 with _ | n1
    · simp at h
      left
      exact h.symm
    · simp only [] at h
      by_cases hn1 : n1 ≠ cmd.length
      · rw [if_pos hn1] at h
        simp at h
        right
        exact ⟨n1, cmd.length, h.symm⟩
      · rw [if_neg hn1] at h
        rcases rest1 with _ | ⟨r2, rest2⟩ <;> simp only [] at h
        · simp at h
          left
          exact h.symm
        · rcases r2 with _ | n2
          · simp at h
            left
            exact h.symm
          · simp only [] at h
            by_cases hn2 : n2 ≠ 1
            · rw [if_pos hn2] at h
              simp at h
              right
              exact ⟨n2, 1, h.symm⟩
            · rw [if_neg hn2] at h
              simp at h

/-- C10 counterexample: a successfully read response consisting of a bare
newline makes is_ok panic (split_at past the end of the one-byte response)
instead of returning Ok false. -/
theorem is_ok_counterexample :
    (is_ok isOkShortDevice).1 = .panicked ∧
    (RRes.panicked : RRes Bool) ≠ .ok false ∧
    (RRes.panicked : RRes Bool) ≠ .ok true := by
  refine ⟨by decide, by decide, by decide⟩

/-- C10 as amended: when the write succeeds and a response of at least the
five prelude bytes is read (prelude length on a character boundary), is_ok
returns Ok true exactly when the response frames with prelude +AT: and
trimmed payload OK, and Ok false otherwise; moreover is_ok never returns an
UnexpectedResponse error for any device whatsoever.  (A successfully read
response shorter than the prelude instead panics.) -/
theorem is_ok_amended (d d1 d2 : Device) (n : Nat)
    (h1 : write_command (ascii "AT") d = (.ok (), d1))
    (h2 : read_until_break d1 = (.ok n, d2))
    (h3 : 5 ≤ d2.buf.length)
    (h4 : isCharBoundary d2.buf 5 = true) :
    is_ok d =
      (.ok (decide (d2.buf.take 5 = ascii "+AT: " ∧ trimEnd (d2.buf.drop 5) = ascii "OK")), d2) ∧
    (∀ d0 : Device, ∀ s : Bytes, (is_ok d0).1 ≠ .err (.unexpectedResponse s)) := by
  constructor
  · have hutf : (utf8Decode d2.buf).isSome = true := by
      unfold read_until_break read_until_pattern at h2
      rcases hg : ruGo [nl] d1.readScript [] with ⟨r, acc, rest⟩
      rw [hg] at h2
      simp only [Prod.mk.injEq] at h2
      obtain ⟨hr, hd2⟩ := h2
      subst hr
      subst hd2
      have := ruGo_ok_shape [nl] d1.readScript [] acc n rest hg
      simpa using this.1
    have hlen5 : (ascii "+AT: ").length = 5 := by decide
    have hframe : framed_response d2.buf (ascii "+AT: ") =
        (if d2.buf.take 5 = ascii "+AT: " then .ok (d2.buf.drop 5)
         else .err (.unexpectedResponse d2.buf)) := by
      have := (framed_response_amended d2.buf (ascii "+AT: ") hutf (by rw [hlen5]; exact h4)).1
      rw [hlen5] at this
      exact this
    unfold is_ok
    simp only [h1]
    simp only [h2]
    unfold check_framed_response
    rw [hframe]
    by_cases hp : d2.buf.take 5 = ascii "+AT: "
    · rw [if_pos hp]
      by_cases htr : trimEnd (d2.buf.drop 5) = ascii "OK"
      · simp [hp, htr]
      · simp [hp, htr]
    · rw [if_neg hp]
      simp [hp]
  · intro d0 s
    rcases hw : write_command (ascii "AT") d0 with ⟨rw1, dd1⟩
    unfold is_ok
    simp only [hw]
    rcases rw1 with u | e | _ | _
    · rcases hr : read_until_break dd1 with ⟨rr, dd2⟩
      simp only [hr]
      rcases rr with m | e2 | _ | _
      · rcases hc : check_framed_response dd2.buf (ascii "+AT: ") (ascii "OK") with
          u2 | e3 | _ | _ <;> simp [hc]
      · unfold read_until_break read_until_pattern at hr
        rcases hg : ruGo [nl] dd1.readScript [] with ⟨r, acc, rest⟩
        rw [hg] at hr
        simp only [Prod.mk.injEq] at hr
        obtain ⟨hre, hdd⟩ := hr
        subst hre
        have := ruGo_err_shape [nl] dd1.readScript [] acc e2 rest hg
        rcases this with h | ⟨h, _⟩ <;> subst h <;> simp [RRes.pass]
      · simp [RRes.pass]
      · simp [RRes.pass]
    · have := write_command_err_shape (ascii "AT") d0 e (by rw [hw])
      rcases this with h | ⟨a, b, h⟩ <;> subst h <;> simp [RRes.pass]
    · simp [RRes.pass]
    · simp [RRes.pass]

/-- Witness for is_ok_amended: a device answering the liveness check with
the expected line yields Ok true. -/
theorem is_ok_amended_witness :
    (is_ok isOkGoodDevice).1 = .ok true := by
  have h := (is_ok_amended isOkGoodDevice
      { isOkGoodDevice with writeScript := [], writes := [ascii "AT", nl] }
      { isOkGoodDevice with
          writeScript := []
          writes := [ascii "AT", nl]
          readScript := []
          buf := ascii "+AT: OK\r\n" }
      (ascii "+AT: OK\r\n").length rfl rfl (by decide) (by decide)).1
  rw [h]
  decide

/-- C2 counterexample: the actor runtime raw AT request path appends its own
newline before invoking write_command, so for the caller command AT the two
write calls carry AT plus newline and then another newline: three bytes
followed by one, not the command text followed by a single newline. -/
theorem write_command_counterexample :
    (atRequestWrite (ascii "AT") atOkDevice).2.writes = [ascii "AT" ++ nl, nl] ∧
    (atRequestWrite (ascii "AT") atOkDevice).2.writes ≠ [ascii "AT", nl] := by
  refine ⟨by decide, by decide⟩

/-- C2 as amended: write_command writes its argument and then a single
newline as two separate write calls, fails with IncorrectWrite (got,
expected) on a byte-count mismatch of either call without issuing further
writes or retries; the raw AT request path of the actor runtime equals
write_command applied to the caller text with a newline appended, hence
writes the caller text followed by two newline bytes. -/
theorem write_command_amended (cmd : Bytes) (d : Device) :
    atRequestWrite cmd d = write_command (cmd ++ nl) d ∧
    (∀ n rest, d.writeScript = some n :: rest → n ≠ cmd.length →
      write_command cmd d =
        (.err (.incorrectWrite n cmd.length),
         { d with writeScript := rest, writes := d.writes ++ [cmd] })) ∧
    (∀ n2 rest, d.writeScript = some cmd.length :: some n2 :: rest → n2 ≠ 1 →
      write_command cmd d =
        (.err (.incorrectWrite n2 1),
         { d with writeScript := rest, writes := d.writes ++ [cmd, nl] })) ∧
    (∀ rest, d.writeScript = some cmd.length :: some 1 :: rest →
      write_command cmd d =
        (.ok (), { d with writeScript := rest, writes := d.writes ++ [cmd, nl] })) := by
  refine ⟨rfl, ?_, ?_, ?_⟩
  · intro n rest hs hn
    simp [write_command, portWrite, hs, hn]
  · intro n2 rest hs hn2
    simp [write_command, portWrite, hs, hn2]
  · intro rest hs
    simp [write_command, portWrite, hs]

/-- Witness for write_command_amended: a three-byte command acknowledged in
full, then the newline acknowledged, succeeds with the two writes traced. -/
theorem write_command_amended_witness :
    write_command (ascii "ATE") atOkDevice =
      (.ok (), { atOkDevice with writeScript := [], writes := atOkDevice.writes ++ [ascii "ATE", nl] }) :=
  (write_command_amended (ascii "ATE") atOkDevice).2.2.2 [] rfl

/-- C4 counterexample: a join response containing the bare words Joined
already (with a lone newline, not the full CR LF line) is classified
JoinFailed by the code, not AlreadyJoined as the claimed substring scan
would give. -/
theorem join_classify_counterexample :
    bcontains bareJoinedResp (ascii "Joined already") = true ∧
    joinClassify bareJoinedResp = .joinFailed ∧
    JoinResponse.joinFailed ≠ JoinResponse.alreadyJoined := by
  refine ⟨by decide, by decide, by decide⟩

/-- C4 as amended: after a successful write and read, join returns the
classification of the accumulated text, scanning for the full literal line
+JOIN: Joined already CR LF (not the bare substring), then for Network
joined, else JoinFailed; the full already-joined line itself resolves to
AlreadyJoined. -/
theorem join_amended (d d1 d2 : Device) (n : Nat)
    (h1 : write_command (ascii "AT+JOIN") d = (.ok (), d1))
    (h2 : read_until_pattern [joinDoneLine, alreadyJoinedLine] d1 = (.ok n, d2)) :
    join d = (.ok (joinClassify d2.buf), d2) ∧
    joinClassify alreadyJoinedLine = .alreadyJoined ∧
    (∀ r : Bytes, bcontains r alreadyJoinedLine = true → joinClassify r = .alreadyJoined) ∧
    (∀ r : Bytes, bcontains r alreadyJoinedLine = false →
      bcontains r (ascii "Network joined") = true → joinClassify r = .joinComplete) ∧
    (∀ r : Bytes, bcontains r alreadyJoinedLine = false →
      bcontains r (ascii "Network joined") = false → joinClassify r = .joinFailed) := by
  refine ⟨?_, by decide, ?_, ?_, ?_⟩
  · unfold join
    simp only [h1]
    simp only [h2]
  · intro r hr
    simp [joinClassify, hr]
  · intro r hr1 hr2
    simp [joinClassify, hr1, hr2]
  · intro r hr1 hr2
    simp [joinClassify, hr1, hr2]

/-- Witness for join_amended: a device answering with the full
already-joined line makes join return AlreadyJoined. -/
theorem join_amended_witness :
    (join joinAlreadyDevice).1 = .ok JoinResponse.alreadyJoined := by
  have h := (join_amended joinAlreadyDevice
      { joinAlreadyDevice with writeScript := [], writes := [ascii "AT+JOIN", nl] }
      { joinAlreadyDevice with
          writeScript := []
          writes := [ascii "AT+JOIN", nl]
          readScript := []
          buf := ascii "+JOIN: Joined already\r\n" }
      (ascii "+JOIN: Joined already\r\n").length rfl rfl).1
  rw [h]
  decide

/-- C5: after the port is set, the uplink command written and the Done line
read, send returns exactly the classification of the response: with no
RXWIN1 or RXWIN2 marker it fails with Nack when confirmed and succeeds with
no downlink when unconfirmed; with a marker present the result is the
downlink obtained by parsing RSSI and SNR at the marker offset. -/
theorem send_contract (data : Bytes) (port : Nat) (confirmed : Bool) (d d1 d2 d3 : Device)
    (n : Nat)
    (h1 : set_port port d = (.ok (), d1))
    (h2 : write_command (sendCmd data confirmed) d1 = (.ok (), d2))
    (h3 : read_until_pattern [sendEndLine confirmed] d2 = (.ok n, d3)) :
    send data port confirmed d = (sendClassify d3.buf confirmed, d3) ∧
    (findSub d3.buf (ascii "RXWIN1") = none → findSub d3.buf (ascii "RXWIN2") = none →
      sendClassify d3.buf confirmed = if confirmed then .err .nack else .ok none) ∧
    (∀ m, findSub d3.buf (ascii "RXWIN1") = some m →
      sendClassify d3.buf confirmed = mapDl (parse_rssi_snr d3.buf m)) ∧
    (∀ m, findSub d3.buf (ascii "RXWIN1") = none → findSub d3.buf (ascii "RXWIN2") = some m →
      sendClassify d3.buf confirmed = mapDl (parse_rssi_snr d3.buf m)) := by
  refine ⟨?_, ?_, ?_, ?_⟩
  · unfold send
    simp only [h1]
    simp only [h2]
    simp only [h3]
  · intro hm1 hm2
    simp [sendClassify, hm1, hm2]
  · intro m hm1
    simp [sendClassify, hm1]
  · intro m hm1 hm2
    simp [sendClassify, hm1, hm2]

/-- Witness for send_contract: an unconfirmed two-byte uplink on port 1
answered by a bare Done line succeeds with no downlink. -/
theorem send_contract_witness :
    (send [1, 2] 1 false sendNoneDevice).1 = .ok none := by
  have h := (send_contract [1, 2] 1 false sendNoneDevice
      { sendNoneDevice with
          writeScript := [some 16, some 1]
          readScript := [{ chunk := some (ascii "+MSGHEX: Done\r\n"), timedOut := false }]
          writes := [ascii "AT+PORT=1", nl]
          buf := ascii "+PORT: 1\r\n" }
      { sendNoneDevice with
          writeScript := []
          readScript := [{ chunk := some (ascii "+MSGHEX: Done\r\n"), timedOut := false }]
          writes := [ascii "AT+PORT=1", nl, sendCmd [1, 2] false, nl]
          buf := ascii "+PORT: 1\r\n" }
      { sendNoneDevice with
          writeScript := []
          readScript := []
          writes := [ascii "AT+PORT=1", nl, sendCmd [1, 2] false, nl]
          buf := ascii "+MSGHEX: Done\r\n" }
      (ascii "+MSGHEX: Done\r\n").length (by decide) (by decide) (by decide)).1
  rw [h]
  decide

/-- Read loop runs on a script whose first timed-out event comes at position
j, with no terminator match and no UTF-8 failure on any accumulated prefix
up to and including that event: the loop stops at event j with a
PartialResponse carrying exactly the bytes accumulated so far. -/
theorem ruGo_timeout (pats : List Bytes) : ∀ (script : List ReadEv) (acc : Bytes) (j : Nat),
    j < script.length →
    (script.getD j default).timedOut = true →
    (∀ i, i < j → (script.getD i default).timedOut = false) →
    (∀ k, k ≤ j + 1 → (utf8Decode (accBytes (script.take k) acc)).isSome = true) →
    (∀ k, k ≤ j + 1 → anyEndsWith pats (accBytes (script.take k) acc) = false) →
    ruGo pats script acc =
      (.err (.partialResponse (accBytes (script.take (j + 1)) acc)),
       accBytes (script.take (j + 1)) acc, script.drop (j + 1))
  | [], acc, j, hj, _, _, _, _ => by simp at hj
  | ev :: script, acc, j, hj, hT, hF, hU, hN => by
    cases j with
    | zero =>
      simp only [ruGo]
      generalize hacc2 : (match ev.chunk with | some c => acc ++ c | none => acc) = acc2
      have heq : accBytes ((ev :: script).take 1) acc = acc2 := by
        rw [← hacc2]
        rcases hc : ev.chunk <;> simp [accBytes, hc]
      have hu : (utf8Decode acc2).isNone = false := by
        have hx := hU 1 (by omega)
        rw [heq] at hx
        rcases hy : utf8Decode acc2 with _ | q
        · rw [hy] at hx
          simp at hx
        · rfl
      have he : anyEndsWith pats acc2 = false := by
        have hx := hN 1 (by omega)
        rw [heq] at hx
        exact hx
      have ht : ev.timedOut = true := by simpa using hT
      simp only [hu, Bool.false_eq_true, if_false, he, ht, if_true]
      rw [heq]
      simp
    | succ j =>
      simp only [ruGo]
      generalize hacc2 : (match ev.chunk with | some c => acc ++ c | none => acc) = acc2
      have hstep : ∀ k, accBytes ((ev :: script).take (k + 1)) acc =
          accBytes (script.take k) acc2 := by
        intro k
        rw [← hacc2]
        rcases hc : ev.chunk <;> simp [accBytes, hc]
      have hu : (utf8Decode acc2).isNone = false := by
        have hx := hU 1 (by omega)
        rw [hstep 0] at hx
        simp only [List.take_zero, accBytes] at hx
        rcases hy : utf8Decode acc2 with _ | q
        · rw [hy] at hx
          simp at hx
        · rfl
      have he : anyEndsWith pats acc2 = false := by
        have hx := hN 1 (by omega)
        rw [hstep 0] at hx
        simpa [accBytes] using hx
      have ht : ev.timedOut = false := by simpa using hF 0 (by omega)
      simp only [hu, Bool.false_eq_true, if_false, he, ht]
      rw [hstep (j + 1)]
      have hdrop : (ev :: script).drop (j + 1 + 1) = script.drop (j + 1) := by simp
      rw [hdrop]
      exact ruGo_timeout pats script acc2 j
        (by simp only [List.length_cons] at hj; omega)
        (by simpa using hT)
        (fun i hi => by simpa using hF (i + 1) (by omega))
        (fun k hk => by rw [← hstep k]; exact hU (k + 1) (by omega))
        (fun k hk => by rw [← hstep k]; exact hN (k + 1) (by omega))

/-- C6: if the script of read events first times out at position j while no
accumulated prefix up to then ends with any terminator pattern (all prefixes
UTF-8 decodable), read_until_pattern fails with a PartialResponse error
whose payload is exactly the bytes accumulated so far, which also become the
buffer content — nothing is discarded; and on any device whatsoever a
successful return means the accumulated buffer ends with a terminator
pattern and the returned count is its full length. -/
theorem read_until_pattern_timeout (pats : List Bytes) (d : Device) (j : Nat)
    (hj : j < d.readScript.length)
    (hT : (d.readScript.getD j default).timedOut = true)
    (hF : ∀ i, i < j → (d.readScript.getD i default).timedOut = false)
    (hU : ∀ k, k ≤ j + 1 → (utf8Decode (accBytes (d.readScript.take k) [])).isSome = true)
    (hN : ∀ k, k ≤ j + 1 → anyEndsWith pats (accBytes (d.readScript.take k) []) = false) :
    read_until_pattern pats d =
      (.err (.partialResponse (accBytes (d.readScript.take (j + 1)) [])),
       { d with readScript := d.readScript.drop (j + 1), buf := accBytes (d.readScript.take (j + 1)) [] }) ∧
    (∀ d0 : Device, ∀ n : Nat, ∀ d2 : Device, read_until_pattern pats d0 = (.ok n, d2) →
      anyEndsWith pats d2.buf = true ∧ n = d2.buf.length) := by
  constructor
  · unfold read_until_pattern
    rw [ruGo_timeout pats d.readScript [] j hj hT hF hU hN]
  · intro d0 n d2 h
    unfold read_until_pattern at h
    rcases hg : ruGo pats d0.readScript [] with ⟨r, acc, rest⟩
    rw [hg] at h
    simp only [Prod.mk.injEq] at h
    obtain ⟨hr, hd⟩ := h
    subst hr
    subst hd
    have hshape := ruGo_ok_shape pats d0.readScript [] acc n rest hg
    exact ⟨by simpa using hshape.2.1, by simpa using hshape.2.2⟩

/-- Witness for read_until_pattern_timeout: a device that delivers AT and
then times out makes the read fail with PartialResponse AT. -/
theorem read_until_pattern_timeout_witness :
    (read_until_pattern [nl] timeoutDevice).1 = .err (.partialResponse (ascii "AT")) := by
  have h := (read_until_pattern_timeout [nl] timeoutDevice 1 (by decide) (by decide)
      (by decide) (by decide) (by decide)).1
  rw [h]
  decide

/-- Sequential channel calls distribute over list append, stopping at the
first non-ok outcome. -/
theorem setChannelsOff_append : ∀ (pre rest : List Nat) (d : Device),
    setChannelsOff (pre ++ rest) d =
      (match setChannelsOff pre d with
       | (.ok _, d1) => setChannelsOff rest d1
       | (r, d1) => (r, d1))
  | [], rest, d => by simp [setChannelsOff]
  | c :: pre, rest, d => by
    simp only [List.cons_append, setChannelsOff]
    rcases hsc : set_channel c false d with ⟨r, d1⟩
    rcases r with u | e | _ | _
    · simp only [hsc]
      exact setChannelsOff_append pre rest d1
    · simp only [hsc]
    · simp only [hsc]
    · simp only [hsc]

set_option maxRecDepth 1000000 in
/-- C1 counterexample: on a device script where every channel command is
acknowledged and echoed correctly, subband2_only succeeds after issuing
exactly 64 channel-mask commands, not 80. -/
theorem subband2_only_counterexample :
    (subband2_only subbandOkDevice).1 = .ok () ∧
    ((subband2_only subbandOkDevice).2.writes.countP
        (fun w => (ascii "AT+CH=").isPrefixOf w)) = 64 ∧
    (64 : Nat) ≠ 80 := by
  refine ⟨by decide, by decide, by decide⟩

/-- C1 as amended: subband2_only performs 64 sequential set_channel calls
over channels 0 to 7 and 16 to 71 in that order; when all the calls before
some channel succeed and the call for that channel fails, the whole
operation returns that error with the device state exactly as the failing
call left it, issuing no further calls. -/
theorem subband2_only_amended (d : Device) (pre : List Nat) (c : Nat) (post : List Nat)
    (e : Err) (dmid dfail : Device)
    (hsplit : subbandChannels = pre ++ c :: post)
    (hpre : setChannelsOff pre d = (.ok (), dmid))
    (hfail : set_channel c false dmid = (.err e, dfail)) :
    subband2_only d = (.err e, dfail) ∧ subbandChannels.length = 64 := by
  constructor
  · unfold subband2_only
    rw [hsplit, setChannelsOff_append pre (c :: post) d]
    simp only [hpre, setChannelsOff, hfail]
  · decide

/-- Witness for subband2_only_amended: a zero-byte acknowledgement of the
very first channel command aborts the whole sequence with IncorrectWrite. -/
theorem subband2_only_amended_witness :
    (subband2_only subbandFailDevice).1 = .err (.incorrectWrite 0 11) := by
  have h := (subband2_only_amended subbandFailDevice [] 0 subbandChannels.tail
      (.incorrectWrite 0 11) subbandFailDevice
      { subbandFailDevice with writeScript := [], writes := [ascii "AT+CH=0,off"] }
      (by decide) rfl (by decide)).1
  rw [h]
